import Mathlib

/-!
Verification of the core of a minimal Kafka-subset broker (Go source).

The Go source is shallowly embedded: byte slices become `List Nat` (each
element a byte value 0..255), `BytesReader` becomes a structure with the
slice and a cursor, machine integers become `Nat`/`Int` with explicit
`% 2^w` where conversions occur, and the handlers become pure functions.
The partition store (file I/O) is abstracted as oracle functions passed
to the handlers, matching the spec's "external collaborator" view.
-/

set_option maxHeartbeats 1000000

namespace Kafka

/-- Interpret the low `8*w` bits of `n` as a signed big-endian integer of
width `8*w` bits (two's complement), as Go's `intN(uintN)` conversions do. -/
def toSigned (bits : Nat) (n : Nat) : Int :=
  if n % 2 ^ bits < 2 ^ (bits - 1) then ((n % 2 ^ bits : Nat) : Int)
  else ((n % 2 ^ bits : Nat) : Int) - 2 ^ bits

/-- Big-endian bytes (most significant first) of the low `8*w` bits of `n`. -/
def beBytes : Nat → Nat → List Nat
  | 0, _ => []
  | w + 1, n => (n >>> (8 * w)) % 256 :: beBytes w n

/-- Big-endian value of `w` bytes of `l` starting at `off`
(`binary.BigEndian.UintN(l[off:off+w])`). Missing bytes read as 0; the
callers only use it under a bounds guard. -/
def beSlice (l : List Nat) (off : Nat) : Nat → Nat
  | 0 => 0
  | w + 1 => beSlice l off w * 256 + l.getD (off + w) 0

/-- `b[off:off+n]` as a list. -/
def listSlice (l : List Nat) (off n : Nat) : List Nat :=
  (l.drop off).take n

/-- Go `parser.BytesReader`: a byte slice with a read cursor. -/
structure BytesReader where
  b : List Nat
  off : Nat
  deriving Repr, DecidableEq

/-- Go `(*BytesReader).CanRead`: `br.Off+n <= len(br.B)`. -/
def canRead (br : BytesReader) (n : Nat) : Bool :=
  br.off + n ≤ br.b.length

/-- The byte under the cursor, `br.B[br.Off]` (used only under `canRead`). -/
def byteAt (br : BytesReader) : Nat :=
  br.b.getD br.off 0

/-- Go `ReadInt8/16/32/64` share this shape: read `w` big-endian bytes as a
signed value, or return 0 without moving when fewer than `w` bytes remain. -/
def readFixed (w : Nat) (br : BytesReader) : Int × BytesReader :=
  if canRead br w then
    (toSigned (8 * w) (beSlice br.b br.off w), ⟨br.b, br.off + w⟩)
  else (0, br)

def readInt8 (br : BytesReader) : Int × BytesReader := readFixed 1 br

def readInt16 (br : BytesReader) : Int × BytesReader := readFixed 2 br

def readInt32 (br : BytesReader) : Int × BytesReader := readFixed 4 br

def readInt64 (br : BytesReader) : Int × BytesReader := readFixed 8 br

/-- The loop of Go `ReadUVarInt`, with `fuel` iterations left out of 5
(so the Go index `i` equals `5 - fuel`; `i == 4` is `fuel = 1`).
`x` is the accumulator and `s` the current shift. -/
def readUVarIntLoop : Nat → BytesReader → Nat → Nat → Nat × BytesReader
  | 0, br, x, _ => (x, br)
  | fuel + 1, br, x, s =>
    if canRead br 1 then
      let b := byteAt br
      let br' : BytesReader := ⟨br.b, br.off + 1⟩
      if b < 128 then
        if fuel = 0 ∧ b > 1 then (x, br')
        else (x ||| (b <<< s), br')
      else readUVarIntLoop fuel br' (x ||| ((b &&& 127) <<< s)) (s + 7)
    else (x, br)

/-- Go `ReadUVarInt`: LEB128 with at most 5 bytes and an overflow guard on
the fifth byte's payload. -/
def readUVarInt (br : BytesReader) : Nat × BytesReader :=
  readUVarIntLoop 5 br 0 0

/-- Go's `int64(x>>1) ^ -(int64(x) & 1)`: zig-zag decoding. Xor with `-1`
is two's-complement negation minus one, so the odd case is `-(u/2) - 1`. -/
def zigzagDecode (u : Nat) : Int :=
  if u % 2 = 0 then ((u / 2 : Nat) : Int) else -((u / 2 : Nat) : Int) - 1

/-- The loop of Go `ReadVarInt`, with `fuel` iterations left out of 10. -/
def readVarIntLoop : Nat → BytesReader → Nat → Nat → Int × BytesReader
  | 0, br, _, _ => (0, br)
  | fuel + 1, br, x, s =>
    if canRead br 1 then
      let b := byteAt br
      let br' : BytesReader := ⟨br.b, br.off + 1⟩
      if b < 128 then (zigzagDecode (x ||| (b <<< s)), br')
      else readVarIntLoop fuel br' (x ||| ((b &&& 127) <<< s)) (s + 7)
    else (zigzagDecode x, br)

/-- Go `ReadVarInt`: zig-zag varint, at most 10 bytes, yields 0 after ten
continuation bytes. -/
def readVarInt (br : BytesReader) : Int × BytesReader :=
  readVarIntLoop 10 br 0 0

/-- Go `ReadCompactString`: uvarint length `l+1`; `l <= 0` or a payload
crossing the end yields the empty string with the cursor after the varint. -/
def readCompactString (br : BytesReader) : List Nat × BytesReader :=
  let p := readUVarInt br
  let l : Int := (p.1 : Int) - 1
  if l ≤ 0 then ([], p.2)
  else if canRead p.2 l.toNat then
    (listSlice p.2.b p.2.off l.toNat, ⟨p.2.b, p.2.off + l.toNat⟩)
  else ([], p.2)

/-- Go `ReadCompactNullableString`: uvarint `l`; `l = 0` is null; otherwise
`l-1` payload bytes, empty (non-null) when they would cross the end. -/
def readCompactNullableString (br : BytesReader) : (List Nat × Bool) × BytesReader :=
  let p := readUVarInt br
  if p.1 = 0 then (([], true), p.2)
  else
    let n : Int := (p.1 : Int) - 1
    if n < 0 ∨ ¬ canRead p.2 n.toNat then (([], false), p.2)
    else ((listSlice p.2.b p.2.off n.toNat, false), ⟨p.2.b, p.2.off + n.toNat⟩)

/-- Go `AppendInt16`: append the 2 big-endian bytes of `v`. -/
def appendInt16 (b : List Nat) (v : Int) : List Nat :=
  b ++ beBytes 2 (v.emod 65536).toNat

/-- Go `AppendInt32`. -/
def appendInt32 (b : List Nat) (v : Int) : List Nat :=
  b ++ beBytes 4 (v.emod 4294967296).toNat

/-- Go `AppendInt64`. -/
def appendInt64 (b : List Nat) (v : Int) : List Nat :=
  b ++ beBytes 8 (v.emod 18446744073709551616).toNat

/-- Go `AppendUVarInt`: emit 7-bit groups LSB-first with a continuation
bit (`x&0x7F|0x80` is `x % 128 + 128`) until `x` fits in 7 bits. -/
def appendUVarInt (b : List Nat) (x : Nat) : List Nat :=
  if x < 128 then b ++ [x]
  else appendUVarInt (b ++ [x % 128 + 128]) (x / 128)
termination_by x
decreasing_by exact Nat.div_lt_self (by omega) (by norm_num)

/-- Go `AppendCompactString`: uvarint `len+1` then the raw bytes. -/
def appendCompactString (b : List Nat) (s : List Nat) : List Nat :=
  appendUVarInt b (s.length + 1) ++ s

/-- Go `frameResponse`: 4-byte length prefix (header+body, excluding
itself) then header then body. -/
def frameResponse (header body : List Nat) : List Nat :=
  appendInt32 [] ((header.length + body.length : Nat) : Int) ++ header ++ body

example : beBytes 4 7 = [0, 0, 0, 7] := by decide
example : readInt16 ⟨[1, 2, 3], 0⟩ = (258, ⟨[1, 2, 3], 2⟩) := by decide
example : readInt16 ⟨[255, 255], 0⟩ = (-1, ⟨[255, 255], 2⟩) := by decide
example : readUVarInt ⟨[0x96, 0x01], 0⟩ = (150, ⟨[0x96, 0x01], 2⟩) := by decide
example : readVarInt ⟨[3], 0⟩ = (-2, ⟨[3], 1⟩) := by decide
example : readVarInt ⟨[4], 0⟩ = (2, ⟨[4], 1⟩) := by decide

/-! ## Unsigned varint codec facts (claim C1) -/

lemma and127_eq_mod (b : Nat) : b &&& 127 = b % 128 := by
  have h := Nat.and_pow_two_sub_one_eq_mod b 7
  norm_num at h
  exact h

/-- Splitting a value into its low 7 bits and the rest commutes with
shifted bitwise-or accumulation. -/
lemma uvar_split (x s : Nat) :
    ((x % 128) <<< s) ||| ((x / 128) <<< (s + 7)) = x <<< s := by
  have h128 : (128 : Nat) = 2 ^ 7 := by norm_num
  apply Nat.eq_of_testBit_eq
  intro i
  have hdiv : x / 128 = x >>> 7 := by rw [h128, Nat.shiftRight_eq_div_pow]
  rw [hdiv, h128]
  simp only [Nat.testBit_or, Nat.testBit_shiftLeft, Nat.testBit_mod_two_pow,
    Nat.testBit_shiftRight, ge_iff_le]
  by_cases h1 : i < s
  · simp [show ¬ s ≤ i by omega, show ¬ s + 7 ≤ i by omega]
  · by_cases h2 : i < s + 7
    · simp [show s ≤ i by omega, show i - s < 7 by omega, show ¬ s + 7 ≤ i by omega]
    · have h4 : 7 + (i - (s + 7)) = i - s := by omega
      simp [show s ≤ i by omega, show ¬ i - s < 7 by omega, show s + 7 ≤ i by omega, h4]

lemma appendUVarInt_eq_append (b : List Nat) (x : Nat) :
    appendUVarInt b x = b ++ appendUVarInt [] x := by
  induction x using Nat.strong_induction_on generalizing b with
  | _ x ih =>
    rw [appendUVarInt.eq_def, appendUVarInt.eq_def (b := [])]
    by_cases h : x < 128
    · simp [h]
    · have hd : x / 128 < x := Nat.div_lt_self (by omega) (by norm_num)
      simp only [if_neg h]
      rw [ih _ hd, ih _ hd (b := [] ++ [x % 128 + 128])]
      simp

lemma appendUVarInt_nil_lt {x : Nat} (h : x < 128) : appendUVarInt [] x = [x] := by
  rw [appendUVarInt.eq_def]
  simp [h]

lemma appendUVarInt_nil_ge {x : Nat} (h : ¬ x < 128) :
    appendUVarInt [] x = (x % 128 + 128) :: appendUVarInt [] (x / 128) := by
  rw [appendUVarInt.eq_def]
  simp only [if_neg h]
  rw [appendUVarInt_eq_append]
  simp

lemma getD_append_cons (pre rest : List Nat) (d : Nat) :
    (pre ++ d :: rest).getD pre.length 0 = d := by
  induction pre with
  | nil => rfl
  | cons a t ih => simpa using ih

/-- Reading back an encoded varint from any cursor position: with `fuel`
iterations left and every encoded value small enough that the fifth-byte
overflow guard stays idle, the loop accumulates exactly `x <<< s`. -/
lemma readUVarIntLoop_enc :
    ∀ (x fuel acc s : Nat) (pre : List Nat), 1 ≤ fuel →
    x < 2 * 2 ^ (7 * (fuel - 1)) →
    readUVarIntLoop fuel ⟨pre ++ appendUVarInt [] x, pre.length⟩ acc s
      = (acc ||| (x <<< s),
         ⟨pre ++ appendUVarInt [] x, pre.length + (appendUVarInt [] x).length⟩) := by
  intro x
  induction x using Nat.strong_induction_on with
  | _ x ih =>
    intro fuel acc s pre hfuel hx
    obtain ⟨f, rfl⟩ : ∃ f, fuel = f + 1 := ⟨fuel - 1, by omega⟩
    by_cases h : x < 128
    · rw [appendUVarInt_nil_lt h]
      have hcan : canRead ⟨pre ++ [x], pre.length⟩ 1 = true := by
        simp [canRead]
      have hguard : ¬ (f = 0 ∧ x > 1) := by
        rintro ⟨rfl, hx1⟩
        norm_num at hx
        omega
      rw [readUVarIntLoop]
      simp [hcan, byteAt, getD_append_cons, h, hguard]
    · have hf : 1 ≤ f := by
        by_contra hf0
        have hf0' : f = 0 := by omega
        subst hf0'
        norm_num at hx
        omega
      rw [appendUVarInt_nil_ge h]
      set d := x % 128 + 128 with hd
      set rest := appendUVarInt [] (x / 128) with hrest
      have hcan : canRead ⟨pre ++ d :: rest, pre.length⟩ 1 = true := by
        simp [canRead]
      have hbyte : byteAt ⟨pre ++ d :: rest, pre.length⟩ = d := getD_append_cons pre rest d
      have hdlt : ¬ d < 128 := by omega
      rw [readUVarIntLoop]
      simp only [hcan, if_true, hbyte, if_neg hdlt]
      have hstep : (⟨pre ++ d :: rest, pre.length + 1⟩ : BytesReader)
          = ⟨(pre ++ [d]) ++ rest, (pre ++ [d]).length⟩ := by
        simp
      rw [hstep, hrest]
      have hdivlt : x / 128 < x := Nat.div_lt_self (by omega) (by norm_num)
      have hbound : x / 128 < 2 * 2 ^ (7 * (f - 1)) := by
        rw [Nat.div_lt_iff_lt_mul (by norm_num : (0:Nat) < 128)]
        calc x < 2 * 2 ^ (7 * f) := by simpa using hx
          _ = 2 * 2 ^ (7 * (f - 1)) * 128 := by
              rw [mul_assoc]
              congr 1
              rw [show (128 : Nat) = 2 ^ 7 by norm_num, ← pow_add]
              congr 1
              omega
      rw [ih _ hdivlt f _ _ _ hf hbound]
      have hand : d &&& 127 = x % 128 := by
        rw [and127_eq_mod]
        omega
      simp only [Prod.mk.injEq, BytesReader.mk.injEq]
      refine ⟨?_, ?_, ?_⟩
      · rw [hand, Nat.or_assoc, uvar_split]
      · simp
      · simp
        omega

/-- Claim C1 (amended): the unsigned-varint codec round-trips for every
`x < 2^29`, i.e. for every `x` whose five-byte encoding has a fifth
payload byte of at most 1 — reading back `AppendUVarInt(nil, x)` yields
`x` with the cursor on the end of the encoding. For `x ≥ 2^29` the read
side's overflow guard discards the fifth byte (see the counterexample). -/
theorem readUVarInt_appendUVarInt (x : Nat) (h : x < 2 ^ 29) :
    readUVarInt ⟨appendUVarInt [] x, 0⟩
      = (x, ⟨appendUVarInt [] x, (appendUVarInt [] x).length⟩) := by
  have h5 := readUVarIntLoop_enc x 5 0 0 [] (by norm_num) (by norm_num at h ⊢; omega)
  simpa [readUVarInt] using h5

/-- Witness for C1's amended theorem at `x = 300` (a two-byte encoding). -/
theorem readUVarInt_appendUVarInt_witness :
    (300 : Nat) < 2 ^ 29 ∧
    readUVarInt ⟨appendUVarInt [] 300, 0⟩
      = (300, ⟨appendUVarInt [] 300, (appendUVarInt [] 300).length⟩) :=
  ⟨by norm_num, readUVarInt_appendUVarInt 300 (by norm_num)⟩

/-- Counterexample to C1 as stated: at `x = 2^29` (fifth payload byte 2),
`ReadUVarInt(AppendUVarInt(nil, x))` returns 0, not `x` — the overflow
guard returns the accumulator without incorporating the fifth byte. -/
theorem readUVarInt_appendUVarInt_counterexample :
    (readUVarInt ⟨appendUVarInt [] 536870912, 0⟩).fst = 0 ∧ (536870912 : Nat) ≠ 0 := by
  have henc : appendUVarInt [] 536870912 = [128, 128, 128, 128, 2] := by
    rw [appendUVarInt.eq_def]
    norm_num
    rw [appendUVarInt.eq_def]
    norm_num
    rw [appendUVarInt.eq_def]
    norm_num
    rw [appendUVarInt.eq_def]
    norm_num
    rw [appendUVarInt.eq_def]
    norm_num
  rw [henc]
  exact ⟨by decide, by decide⟩

/-! ## Parser safety (claim C2) -/

lemma readUVarIntLoop_inv :
    ∀ (fuel : Nat) (br : BytesReader) (x s : Nat), br.off ≤ br.b.length →
    (readUVarIntLoop fuel br x s).2.b = br.b ∧
    (readUVarIntLoop fuel br x s).2.off ≤ br.b.length := by
  intro fuel
  induction fuel with
  | zero => intro br x s h; simp [readUVarIntLoop, h]
  | succ f ih =>
    intro br x s h
    rw [readUVarIntLoop]
    by_cases hc : canRead br 1
    · have hlt : br.off + 1 ≤ br.b.length := by simpa [canRead] using hc
      simp only [hc, if_true]
      by_cases hb : byteAt br < 128
      · by_cases hg : f = 0 ∧ byteAt br > 1
        · simp [hb, hg, hlt]
        · simp [hb, hg, hlt]
      · simpa [hb] using ih ⟨br.b, br.off + 1⟩ _ _ hlt
    · simp [hc, h]

lemma readVarIntLoop_inv :
    ∀ (fuel : Nat) (br : BytesReader) (x s : Nat), br.off ≤ br.b.length →
    (readVarIntLoop fuel br x s).2.b = br.b ∧
    (readVarIntLoop fuel br x s).2.off ≤ br.b.length := by
  intro fuel
  induction fuel with
  | zero => intro br x s h; simp [readVarIntLoop, h]
  | succ f ih =>
    intro br x s h
    rw [readVarIntLoop]
    by_cases hc : canRead br 1
    · have hlt : br.off + 1 ≤ br.b.length := by simpa [canRead] using hc
      simp only [hc, if_true]
      by_cases hb : byteAt br < 128
      · simp [hb, hlt]
      · simpa [hb] using ih ⟨br.b, br.off + 1⟩ _ _ hlt
    · simp [hc, h]

lemma readFixed_inv (w : Nat) (br : BytesReader) (h : br.off ≤ br.b.length) :
    (readFixed w br).2.b = br.b ∧ (readFixed w br).2.off ≤ br.b.length ∧
    (¬ canRead br w → readFixed w br = (0, br)) := by
  unfold readFixed
  by_cases hc : canRead br w
  · have hlt : br.off + w ≤ br.b.length := by simpa [canRead] using hc
    simp [hc, hlt]
  · simp [hc, h]

lemma readCompactString_inv (br : BytesReader) (h : br.off ≤ br.b.length) :
    (readCompactString br).2.b = br.b ∧ (readCompactString br).2.off ≤ br.b.length := by
  rcases hru : readUVarInt br with ⟨u, br1⟩
  have hinv : br1.b = br.b ∧ br1.off ≤ br.b.length := by
    have h5 := readUVarIntLoop_inv 5 br 0 0 h
    unfold readUVarInt at hru
    rw [hru] at h5
    exact h5
  rw [readCompactString, hru]
  by_cases h0 : ((u : Int) - 1) ≤ 0
  · simp [h0, hinv.1, hinv.2]
  · have ht : ((u : Int) - 1).toNat = u - 1 := by omega
    by_cases hc : canRead br1 (u - 1)
    · have hlt : br1.off + (u - 1) ≤ br1.b.length := by
        simpa [canRead] using hc
      rw [hinv.1] at hlt
      simp [h0, ht, hc, hinv.1, hlt]
    · simp [h0, ht, hc, hinv.1, hinv.2]

lemma readCompactNullableString_inv (br : BytesReader) (h : br.off ≤ br.b.length) :
    (readCompactNullableString br).2.b = br.b ∧
    (readCompactNullableString br).2.off ≤ br.b.length := by
  rcases hru : readUVarInt br with ⟨u, br1⟩
  have hinv : br1.b = br.b ∧ br1.off ≤ br.b.length := by
    have h5 := readUVarIntLoop_inv 5 br 0 0 h
    unfold readUVarInt at hru
    rw [hru] at h5
    exact h5
  rw [readCompactNullableString, hru]
  by_cases h0 : u = 0
  · simp [h0, hinv.1, hinv.2]
  · have ht : ((u : Int) - 1).toNat = u - 1 := by omega
    have hn : ¬ ((u : Int) - 1 < 0) := by omega
    by_cases hc : canRead br1 (u - 1)
    · have hlt : br1.off + (u - 1) ≤ br1.b.length := by
        simpa [canRead] using hc
      rw [hinv.1] at hlt
      simp [h0, ht, hn, hc, hinv.1, hlt]
    · simp [h0, ht, hn, hc, hinv.1, hinv.2]

/-- Claim C2 (amended): every codec read primitive is total (no panic in
the model), preserves the `offset ≤ length` invariant of the
`BytesReader`, and a fixed-width read that would cross the end of the
slice returns 0 and leaves the cursor unmoved; a compact-string read
whose declared payload would cross the end returns the empty string with
the cursor just past the length varint (payload unconsumed). The varint
readers keep the cursor within bounds but return the value accumulated
from the bytes consumed before the end, which need not be zero (see the
counterexample). -/
theorem reader_safety (br : BytesReader) (h : br.off ≤ br.b.length) :
    ((readInt8 br).2.b = br.b ∧ (readInt8 br).2.off ≤ br.b.length ∧
      (¬ canRead br 1 → readInt8 br = (0, br))) ∧
    ((readInt16 br).2.b = br.b ∧ (readInt16 br).2.off ≤ br.b.length ∧
      (¬ canRead br 2 → readInt16 br = (0, br))) ∧
    ((readInt32 br).2.b = br.b ∧ (readInt32 br).2.off ≤ br.b.length ∧
      (¬ canRead br 4 → readInt32 br = (0, br))) ∧
    ((readInt64 br).2.b = br.b ∧ (readInt64 br).2.off ≤ br.b.length ∧
      (¬ canRead br 8 → readInt64 br = (0, br))) ∧
    ((readUVarInt br).2.b = br.b ∧ (readUVarInt br).2.off ≤ br.b.length) ∧
    ((readVarInt br).2.b = br.b ∧ (readVarInt br).2.off ≤ br.b.length) ∧
    ((readCompactString br).2.b = br.b ∧ (readCompactString br).2.off ≤ br.b.length) ∧
    ((readCompactNullableString br).2.b = br.b ∧
      (readCompactNullableString br).2.off ≤ br.b.length) ∧
    (∀ u br1, readUVarInt br = (u, br1) → 1 < u → ¬ canRead br1 (u - 1) →
      readCompactString br = ([], br1) ∧
      readCompactNullableString br = (([], false), br1)) := by
  refine ⟨readFixed_inv 1 br h, readFixed_inv 2 br h, readFixed_inv 4 br h,
    readFixed_inv 8 br h, readUVarIntLoop_inv 5 br 0 0 h,
    readVarIntLoop_inv 10 br 0 0 h, readCompactString_inv br h,
    readCompactNullableString_inv br h, ?_⟩
  intro u br1 hu h1 hc
  have hl : ¬ ((u : Int) - 1 ≤ 0) := by omega
  have htn : ((u : Int) - 1).toNat = u - 1 := by omega
  have hc' : ¬ canRead br1 ((u : Int) - 1).toNat := by rw [htn]; exact hc
  have hu0 : u ≠ 0 := by omega
  have hn : ¬ ((u : Int) - 1 < 0) := by omega
  constructor
  · rw [readCompactString, hu]
    simp [hl, hc]
  · rw [readCompactNullableString, hu]
    simp [hu0, hn, hc]

/-- Witness for C2's amended theorem at concrete truncated inputs. -/
theorem reader_safety_witness :
    ((⟨[5], 0⟩ : BytesReader).off ≤ [5].length ∧
      (readUVarInt ⟨[5], 0⟩).2.off ≤ [5].length) ∧
    readInt32 ⟨[5], 0⟩ = (0, ⟨[5], 0⟩) ∧
    readCompactString ⟨[5], 0⟩ = ([], ⟨[5], 1⟩) ∧
    readCompactNullableString ⟨[5], 0⟩ = (([], false), ⟨[5], 1⟩) := by
  have h := reader_safety ⟨[5], 0⟩ (by decide)
  have hlast := (h.2.2.2.2.2.2.2.2) 5 ⟨[5], 1⟩ (by decide) (by decide) (by decide)
  exact ⟨⟨by decide, h.2.2.2.2.1.2⟩, h.2.2.1.2.2 (by decide), hlast.1, hlast.2⟩

/-- Counterexample to C2 as stated: `ReadVarInt` on the one-byte slice
`[0x81]` — a varint whose continuation bit promises a second byte that is
not there, so the read would cross the end — returns -1, not a zero
value (the cursor does stay in bounds). -/
theorem reader_zero_counterexample :
    readVarInt ⟨[129], 0⟩ = (-1, ⟨[129], 1⟩) ∧ ((-1 : Int) ≠ 0) := by
  exact ⟨by decide, by decide⟩

/-! ## Compact-string null versus empty (claim C10) -/

/-- Claim C10: `ReadCompactString` collapses the null encoding (length
varint 0) and the empty encoding (length varint 1) to the same empty
result, so its callers cannot tell them apart; only
`ReadCompactNullableString` reports null, and it does so exactly when the
length varint is 0. In both readers a declared payload that would cross
the end of the input yields the empty string and leaves the payload
unconsumed (cursor just past the length varint). -/
theorem compactString_null_empty (br : BytesReader) (u : Nat) (br1 : BytesReader)
    (hu : readUVarInt br = (u, br1)) :
    ((u = 0 ∨ u = 1) → readCompactString br = ([], br1)) ∧
    (u = 0 → readCompactNullableString br = (([], true), br1)) ∧
    ((readCompactNullableString br).1.2 = true ↔ u = 0) ∧
    (1 < u → ¬ canRead br1 (u - 1) →
      readCompactString br = ([], br1) ∧
      readCompactNullableString br = (([], false), br1)) := by
  refine ⟨?_, ?_, ?_, ?_⟩
  · rintro (rfl | rfl) <;> rw [readCompactString, hu] <;> simp
  · rintro rfl
    rw [readCompactNullableString, hu]
    simp
  · rw [readCompactNullableString, hu]
    by_cases h0 : u = 0
    · simp [h0]
    · simp only [h0, iff_false]
      simp [h0]
      split <;> rfl
  · intro h1 hc
    have hl : ¬ ((u : Int) - 1 ≤ 0) := by omega
    have htn : ((u : Int) - 1).toNat = u - 1 := by omega
    have hn : ¬ ((u : Int) - 1 < 0) := by omega
    have hu0 : u ≠ 0 := by omega
    constructor
    · rw [readCompactString, hu]
      simp [hl, htn, hc]
    · rw [readCompactNullableString, hu]
      simp [hu0, hn, htn, hc]

/-- Witness for C10 at the three concrete encodings: null (`[0]`),
empty (`[1]`), and a truncated declared length (`[5]` with no payload). -/
theorem compactString_null_empty_witness :
    readCompactString ⟨[0], 0⟩ = ([], ⟨[0], 1⟩) ∧
    readCompactString ⟨[1], 0⟩ = ([], ⟨[1], 1⟩) ∧
    readCompactNullableString ⟨[0], 0⟩ = (([], true), ⟨[0], 1⟩) ∧
    ((readCompactNullableString ⟨[1], 0⟩).1.2 = true ↔ (1 : Nat) = 0) ∧
    readCompactString ⟨[5], 0⟩ = ([], ⟨[5], 1⟩) ∧
    readCompactNullableString ⟨[5], 0⟩ = (([], false), ⟨[5], 1⟩) := by
  have h0 := compactString_null_empty ⟨[0], 0⟩ 0 ⟨[0], 1⟩ (by decide)
  have h1 := compactString_null_empty ⟨[1], 0⟩ 1 ⟨[1], 1⟩ (by decide)
  have h5 := compactString_null_empty ⟨[5], 0⟩ 5 ⟨[5], 1⟩ (by decide)
  have h5' := h5.2.2.2 (by decide) (by decide)
  exact ⟨h0.1 (Or.inl rfl), h1.1 (Or.inr rfl), h0.2.1 rfl, h1.2.2.1, h5'.1, h5'.2⟩

/-! ## Broker state, handlers and dispatcher -/

/-- Go `topic.Meta`: topic UUID (16 raw bytes) and partition count. -/
structure Meta where
  id : List Nat
  partitions : Nat
  deriving Repr, DecidableEq

/-- Go `topic.BrokerState`: the topic catalog. The Go map is modelled as
an association list; lookups take the first match (Go maps have unique
keys, so this is faithful). -/
abbrev BrokerState := List (List Nat × Meta)

/-- `state.Topics[name]`. -/
def findTopic : BrokerState → List Nat → Option Meta
  | [], _ => none
  | (n, m) :: rest, name => if n = name then some m else findTopic rest name

/-- The reverse scan `for name, meta := range state.Topics` with
`meta.ID == topicID` in Go `HandleFetchV16` (first match; Go map
iteration order is unspecified, which only matters if two catalog
entries shared a UUID). -/
def findTopicByID : BrokerState → List Nat → Option (List Nat × Meta)
  | [], _ => none
  | (n, m) :: rest, tid => if m.id = tid then some (n, m) else findTopicByID rest tid

def apiKeyProduce : Int := 0
def apiKeyFetch : Int := 1
def apiKeyApiVersions : Int := 18
def apiKeyDescribeTopicParts : Int := 75

def errNone : Int := 0
def errUnknownTopicOrPartition : Int := 3
def errUnsupportedVersion : Int := 35
def errUnknownTopicID : Int := 100

/-- Go `handlers.BuildSimpleError`: correlation id only (Header v0),
body = the two error-code bytes. -/
def buildSimpleError (corrID errorCode : Int) : List Nat :=
  frameResponse (appendInt32 [] corrID) (appendInt16 [] errorCode)

/-- Go `handlers.BuildApiVersionsErrorOnly` (an alias). -/
def buildApiVersionsErrorOnly (corrID errorCode : Int) : List Nat :=
  buildSimpleError corrID errorCode

/-- The body built by Go `handlers.BuildApiVersionsV4Body` (independent
of the correlation id). -/
def apiVersionsV4BodyBuild : List Nat :=
  let body := appendInt16 [] errNone
  let body := appendUVarInt body 5
  let body := appendInt16 body apiKeyProduce
  let body := appendInt16 body 0
  let body := appendInt16 body 11
  let body := appendUVarInt body 0
  let body := appendInt16 body apiKeyFetch
  let body := appendInt16 body 0
  let body := appendInt16 body 16
  let body := appendUVarInt body 0
  let body := appendInt16 body apiKeyApiVersions
  let body := appendInt16 body 0
  let body := appendInt16 body 4
  let body := appendUVarInt body 0
  let body := appendInt16 body apiKeyDescribeTopicParts
  let body := appendInt16 body 0
  let body := appendInt16 body 0
  let body := appendUVarInt body 0
  let body := appendInt32 body 0
  appendUVarInt body 0

/-- Go `handlers.BuildApiVersionsV4Body`: Header v0 and the fixed
four-entry api_keys array. -/
def buildApiVersionsV4Body (corrID : Int) : List Nat :=
  frameResponse (appendInt32 [] corrID) apiVersionsV4BodyBuild

/-! ### Fetch v16 -/

/-- The partition-skipping inner loop body of Go `parseFetchRequestV16`. -/
def fetchSkipPartition (br : BytesReader) : BytesReader :=
  let br := (readInt32 br).2
  let br := (readInt32 br).2
  let br := (readInt64 br).2
  let br := (readInt64 br).2
  let br := (readInt64 br).2
  let br := (readInt32 br).2
  (readUVarInt br).2

def fetchSkipPartitions : Nat → BytesReader → BytesReader
  | 0, br => br
  | n + 1, br => fetchSkipPartitions n (fetchSkipPartition br)

/-- The topic loop of Go `parseFetchRequestV16`: collect 16-byte topic
UUIDs, skipping each topic's partition list and tag buffer; break when
fewer than 16 bytes remain. -/
def fetchTopicsLoop : Nat → BytesReader → List (List Nat) → List (List Nat)
  | 0, _, acc => acc
  | n + 1, br, acc =>
    if canRead br 16 then
      let tid := listSlice br.b br.off 16
      let br1 : BytesReader := ⟨br.b, br.off + 16⟩
      let p := readUVarInt br1
      let nPart : Int := (p.1 : Int) - 1
      let br2 := fetchSkipPartitions (if nPart < 0 then 0 else nPart.toNat) p.2
      let br3 := (readUVarInt br2).2
      fetchTopicsLoop n br3 (acc ++ [tid])
    else acc

/-- Go `parseFetchRequestV16`. -/
def parseFetchRequestV16 (reqBody : List Nat) : List (List Nat) :=
  let br : BytesReader := ⟨reqBody, 0⟩
  let br := (readCompactString br).2
  let br := (readInt32 br).2
  let br := (readInt32 br).2
  let br := (readInt32 br).2
  let br := (readInt8 br).2
  let br := (readInt32 br).2
  let br := (readInt32 br).2
  let p := readUVarInt br
  let nTopics : Int := (p.1 : Int) - 1
  if nTopics < 0 then []
  else fetchTopicsLoop nTopics.toNat p.2 []

/-- The per-topic loop body of Go `HandleFetchV16`. `store` is the
partition-store read collaborator (`partition.ReadRecords`); a missing
or empty file is the empty list. -/
def fetchAppendTopic (state : BrokerState) (store : List Nat → Int → List Nat)
    (body : List Nat) (topicID : List Nat) : List Nat :=
  let body := body ++ topicID
  let body := appendUVarInt body 2
  let body := appendInt32 body 0
  match findTopicByID state topicID with
  | none =>
      let body := appendInt16 body errUnknownTopicID
      let body := appendInt64 body 0
      let body := appendInt64 body 0
      let body := appendInt64 body 0
      let body := appendUVarInt body 1
      let body := appendInt32 body 0
      let body := appendUVarInt body 1
      let body := appendUVarInt body 0
      appendUVarInt body 0
  | some (topicName, _) =>
      let records := store topicName 0
      let body := appendInt16 body errNone
      let body := appendInt64 body 1
      let body := appendInt64 body 0
      let body := appendInt64 body 0
      let body := appendUVarInt body 1
      let body := appendInt32 body 0
      let body :=
        if records.length > 0 then appendUVarInt body (records.length + 1) ++ records
        else appendUVarInt body 1
      let body := appendUVarInt body 0
      appendUVarInt body 0

/-- Go `HandleFetchV16`. -/
def handleFetchV16 (corrID : Int) (reqBody : List Nat) (state : BrokerState)
    (store : List Nat → Int → List Nat) : List Nat :=
  let topicIDs := parseFetchRequestV16 reqBody
  let header := appendUVarInt (appendInt32 [] corrID) 0
  let body := appendInt32 [] 0
  let body := appendInt16 body errNone
  let body := appendInt32 body 0
  let body := appendUVarInt body (topicIDs.length + 1)
  let body := topicIDs.foldl (fetchAppendTopic state store) body
  let body := appendUVarInt body 0
  frameResponse header body

/-! ### Produce v11 -/

/-- Go `handlers.ProducePartitionRequest`. -/
structure ProducePartReq where
  idx : Int
  records : List Nat
  deriving Repr, DecidableEq

/-- Go `handlers.ProduceTopicRequest`. -/
structure ProduceTopicReq where
  name : List Nat
  parts : List ProducePartReq
  deriving Repr, DecidableEq

def parseProducePartsLoop :
    Nat → BytesReader → List ProducePartReq → List ProducePartReq × BytesReader
  | 0, br, acc => (acc, br)
  | n + 1, br, acc =>
    let pIdx := readInt32 br
    let pLen := readUVarInt pIdx.2
    let recordsLen : Int := (pLen.1 : Int) - 1
    let step : List Nat × BytesReader :=
      if recordsLen > 0 ∧ canRead pLen.2 recordsLen.toNat then
        (listSlice pLen.2.b pLen.2.off recordsLen.toNat,
          ⟨pLen.2.b, pLen.2.off + recordsLen.toNat⟩)
      else ([], pLen.2)
    let br2 := (readUVarInt step.2).2
    parseProducePartsLoop n br2 (acc ++ [⟨pIdx.1, step.1⟩])

/-- The topic loop of Go `parseProduceRequestV11`. Unlike the topic
count two lines above it, the per-topic partition count is unguarded:
the code runs `make([]ProducePartitionRequest, 0, nPartitions)` with
`nPartitions = varint - 1`, and a negative capacity is a deterministic
run-time panic in Go. `none` models that panic escaping the parser. -/
def parseProduceTopicsLoop :
    Nat → BytesReader → List ProduceTopicReq → Option (List ProduceTopicReq)
  | 0, _, acc => some acc
  | n + 1, br, acc =>
    let nm := readCompactString br
    let pc := readUVarInt nm.2
    let nPart : Int := (pc.1 : Int) - 1
    if nPart < 0 then none
    else
      let parts := parseProducePartsLoop nPart.toNat pc.2 []
      let br2 := (readUVarInt parts.2).2
      parseProduceTopicsLoop n br2 (acc ++ [⟨nm.1, parts.1⟩])

/-- Go `parseProduceRequestV11` (`none` = the parser panics on a
negative partition-count capacity; the topic-count case is guarded in
the source and returns nil). -/
def parseProduceRequestV11 (reqBody : List Nat) : Option (List ProduceTopicReq) :=
  let br : BytesReader := ⟨reqBody, 0⟩
  let br := (readCompactNullableString br).2
  let br := (readUVarInt br).2
  let br := (readInt16 br).2
  let br := (readInt32 br).2
  let p := readUVarInt br
  let nTopics : Int := (p.1 : Int) - 1
  if nTopics < 0 then some []
  else parseProduceTopicsLoop nTopics.toNat p.2 []

/-- One partition-store write performed by `HandleProduceV11`:
(topic name, partition index, record bytes). -/
abbrev ProduceWrite := List Nat × Int × List Nat

/-- The Go guard for a successful produce on one partition: the topic is
in the catalog, the index lies in `[0, max(partitions, 1))`, and the
partition-store write (`writeOk`) succeeds. A failed store write leaves
no recorded effect, matching the spec's `write → ok | error` collaborator
contract. -/
def produceOk (found : Option Meta) (topicName : List Nat)
    (writeOk : List Nat → Int → Bool) (p : ProducePartReq) : Bool :=
  match found with
  | none => false
  | some m =>
      let num : Nat := if m.partitions = 0 then 1 else m.partitions
      decide (0 ≤ p.idx ∧ p.idx < (num : Int)) && writeOk topicName p.idx

/-- The per-partition loop body of Go `HandleProduceV11`: append the
partition response and record the store write when it takes effect. -/
def produceAppendPart (found : Option Meta) (topicName : List Nat)
    (writeOk : List Nat → Int → Bool) (acc : List Nat × List ProduceWrite)
    (p : ProducePartReq) : List Nat × List ProduceWrite :=
  let ok := produceOk found topicName writeOk p
  let errorCode := if ok then errNone else errUnknownTopicOrPartition
  let baseOffset : Int := if ok then 0 else -1
  let logAppendTime : Int := -1
  let logStartOffset : Int := if ok then 0 else -1
  let writes := if ok then acc.2 ++ [(topicName, p.idx, p.records)] else acc.2
  let body := appendInt32 acc.1 p.idx
  let body := appendInt16 body errorCode
  let body := appendInt64 body baseOffset
  let body := appendInt64 body logAppendTime
  let body := appendInt64 body logStartOffset
  let body := appendUVarInt body 1
  let body := appendCompactString body []
  let body := appendUVarInt body 0
  (body, writes)

/-- The per-topic loop body of Go `HandleProduceV11`. -/
def produceAppendTopic (state : BrokerState) (writeOk : List Nat → Int → Bool)
    (acc : List Nat × List ProduceWrite) (t : ProduceTopicReq) :
    List Nat × List ProduceWrite :=
  let body := appendCompactString acc.1 t.name
  let found := findTopic state t.name
  let body := appendUVarInt body (t.parts.length + 1)
  let inner := t.parts.foldl (produceAppendPart found t.name writeOk) (body, acc.2)
  (appendUVarInt inner.1 0, inner.2)

/-- The response-building part of Go `HandleProduceV11` (everything
after the request parse returns). -/
def produceBuild (corrID : Int) (topicRequests : List ProduceTopicReq)
    (state : BrokerState) (writeOk : List Nat → Int → Bool) :
    List Nat × List ProduceWrite :=
  let header := appendUVarInt (appendInt32 [] corrID) 0
  let body := appendUVarInt [] (topicRequests.length + 1)
  let outer := topicRequests.foldl (produceAppendTopic state writeOk) (body, [])
  let body := appendInt32 outer.1 0
  let body := appendUVarInt body 0
  (frameResponse header body, outer.2)

/-- Go `HandleProduceV11`, returning the response bytes and the list of
partition-store writes that took effect; `none` when the request parser
panics (see `parseProduceTopicsLoop`), in which case no response is
produced and no partition is answered. -/
def handleProduceV11 (corrID : Int) (reqBody : List Nat) (state : BrokerState)
    (writeOk : List Nat → Int → Bool) : Option (List Nat × List ProduceWrite) :=
  match parseProduceRequestV11 reqBody with
  | none => none
  | some topicRequests => some (produceBuild corrID topicRequests state writeOk)

/-! ### DescribeTopicPartitions v0 -/

/-- Go's `sort.Strings` order: bytewise lexicographic string comparison. -/
def lexLe : List Nat → List Nat → Bool
  | [], _ => true
  | _ :: _, [] => false
  | a :: as, c :: cs => if a < c then true else if c < a then false else lexLe as cs

def parseTopicRequestsLoop : Nat → BytesReader → List (List Nat) → List (List Nat)
  | 0, _, acc => acc
  | n + 1, br, acc =>
    let nm := readCompactString br
    let br2 := (readUVarInt nm.2).2
    parseTopicRequestsLoop n br2 (acc ++ [nm.1])

/-- Go `parseTopicRequests`. -/
def parseTopicRequests (reqBody : List Nat) : List (List Nat) :=
  let br : BytesReader := ⟨reqBody, 0⟩
  let br := (readUVarInt br).2
  let p := readUVarInt br
  let nTopics : Int := (p.1 : Int) - 1
  if nTopics < 0 then []
  else parseTopicRequestsLoop nTopics.toNat p.2 []

/-- One partition entry of the known-topic branch of Go
`HandleDescribeTopicPartitionsV0`. -/
def dtpAppendPartition (body : List Nat) (partIdx : Nat) : List Nat :=
  let body := appendInt16 body errNone
  let body := appendInt32 body (partIdx : Int)
  let body := appendInt32 body 1
  let body := appendInt32 body (-1)
  let body := appendUVarInt body 2
  let body := appendInt32 body 1
  let body := appendUVarInt body 2
  let body := appendInt32 body 1
  let body := appendUVarInt body 1
  let body := appendUVarInt body 1
  let body := appendUVarInt body 1
  appendUVarInt body 0

/-- The per-topic loop body of Go `HandleDescribeTopicPartitionsV0`. -/
def dtpAppendTopic (state : BrokerState) (body : List Nat) (name : List Nat) : List Nat :=
  match findTopic state name with
  | none =>
      let body := appendInt16 body errUnknownTopicOrPartition
      let body := appendCompactString body name
      let body := body ++ List.replicate 16 0
      let body := body ++ [0]
      let body := appendUVarInt body 1
      let body := appendInt32 body (-2147483648)
      appendUVarInt body 0
  | some meta =>
      let body := appendInt16 body errNone
      let body := appendCompactString body name
      let body := body ++ meta.id
      let body := body ++ [0]
      let num : Nat := if meta.partitions = 0 then 1 else meta.partitions
      let body := appendUVarInt body (num + 1)
      let body := (List.range num).foldl dtpAppendPartition body
      let body := appendInt32 body (-2147483648)
      appendUVarInt body 0

/-- Go `HandleDescribeTopicPartitionsV0` (`sort.Strings` is modelled by
`List.mergeSort` under the bytewise order; both produce the unique
ascending reordering). -/
def handleDescribeTopicPartitionsV0 (corrID : Int) (reqBody : List Nat)
    (state : BrokerState) : List Nat :=
  let reqNames := (parseTopicRequests reqBody).mergeSort lexLe
  let header := appendUVarInt (appendInt32 [] corrID) 0
  let body := appendInt32 [] 0
  let body := appendUVarInt body (reqNames.length + 1)
  let body := reqNames.foldl (dtpAppendTopic state) body
  frameResponse header (appendUVarInt (body ++ [255]) 0)

/-! ### Dispatcher and connection step -/

/-- The `switch apiKey` of Go `server.HandleConnection`, as a pure
function of one parsed request, also yielding the produce writes.
`none` models a Go panic escaping the handler (only the Produce v11
request parser can panic; see `parseProduceTopicsLoop`). -/
def handleRequest (apiKey apiVersion corrID : Int) (payload : List Nat)
    (state : BrokerState) (store : List Nat → Int → List Nat)
    (writeOk : List Nat → Int → Bool) : Option (List Nat × List ProduceWrite) :=
  if apiKey = apiKeyProduce then
    if apiVersion ≠ 11 then some (buildSimpleError corrID errUnsupportedVersion, [])
    else handleProduceV11 corrID payload state writeOk
  else if apiKey = apiKeyFetch then
    if apiVersion ≠ 16 then some (buildSimpleError corrID errUnsupportedVersion, [])
    else some (handleFetchV16 corrID payload state store, [])
  else if apiKey = apiKeyApiVersions then
    if apiVersion < 0 ∨ apiVersion > 4 then
      some (buildApiVersionsErrorOnly corrID errUnsupportedVersion, [])
    else some (buildApiVersionsV4Body corrID, [])
  else if apiKey = apiKeyDescribeTopicParts then
    if apiVersion ≠ 0 then some (buildSimpleError corrID errUnsupportedVersion, [])
    else some (handleDescribeTopicPartitionsV0 corrID payload state, [])
  else some (frameResponse (appendInt32 [] corrID) [], [])

/-- The header portion of Go `server.readRequest` (after the frame
payload is in hand): fixed fields at offsets 0–8, then client_id and the
tagged-field section, then the body slice at the cursor. -/
def parseHeader (payload : List Nat) : Option (Int × Int × Int × List Nat) :=
  if payload.length < 8 then none
  else
    let apiKey := toSigned 16 (beSlice payload 0 2)
    let apiVersion := toSigned 16 (beSlice payload 2 2)
    let corrID := toSigned 32 (beSlice payload 4 4)
    let hbr : BytesReader := ⟨payload, 8⟩
    let hbr1 := (readCompactNullableString hbr).2
    let p := readUVarInt hbr1
    let tagBufLen := p.1
    let hbr2 : BytesReader :=
      if tagBufLen > 0 ∧ canRead p.2 tagBufLen then ⟨payload, p.2.off + tagBufLen⟩
      else p.2
    if payload.length < hbr2.off then none
    else some (apiKey, apiVersion, corrID, payload.drop hbr2.off)

/-- Go `server.readRequest`: the 4-byte size prefix (positive and at
most 16 MiB, or the connection closes), the payload, then the header.
Returns the parsed request and the unconsumed remainder of the inbound
stream; `none` means the connection is closed. -/
def readRequest (input : List Nat) :
    Option ((Int × Int × Int × List Nat) × List Nat) :=
  if input.length < 4 then none
  else
    let msgSize := toSigned 32 (beSlice input 0 4)
    if msgSize ≤ 0 ∨ msgSize > 16777216 then none
    else if (input.length : Int) - 4 < msgSize then none
    else
      let payload := listSlice input 4 msgSize.toNat
      match parseHeader payload with
      | none => none
      | some q => some (q, input.drop (4 + msgSize.toNat))

/-- One iteration of the Go `server.HandleConnection` loop: read a
request, dispatch it, answer. `none` means the connection does not
continue (a framing error closes it, or a handler panic kills the
process); `some (response, writes, rest)` means it stays open on
`rest`. -/
def serveOne (input : List Nat) (state : BrokerState)
    (store : List Nat → Int → List Nat) (writeOk : List Nat → Int → Bool) :
    Option (List Nat × List ProduceWrite × List Nat) :=
  match readRequest input with
  | none => none
  | some ((k, v, c, body), rest) =>
      match handleRequest k v c body state store writeOk with
      | none => none
      | some r => some (r.1, r.2, rest)

/-! ## Dispatcher facts (claims C3, C4, C9) -/

lemma appendUVarInt_small {x : Nat} (b : List Nat) (h : x < 128) :
    appendUVarInt b x = b ++ [x] := by
  rw [appendUVarInt.eq_def]
  simp [h]

lemma beBytes_length : ∀ (w n : Nat), (beBytes w n).length = w
  | 0, _ => rfl
  | w + 1, n => by simp [beBytes, beBytes_length w n]

lemma appendInt32_nil_length (v : Int) : (appendInt32 [] v).length = 4 := by
  simp [appendInt32, beBytes_length]

/-- The fixed ApiVersions v4 body: `error_code = 0`, a compact array of
exactly four entries — (0, 0–11), (1, 0–16), (18, 0–4), (75, 0–0) — each
closed by an empty tagged buffer, then `throttle_time_ms = 0` and a
trailing empty tagged buffer. -/
def apiVersionsV4BodyBytes : List Nat :=
  [0, 0, 5,
   0, 0, 0, 0, 0, 11, 0,
   0, 1, 0, 0, 0, 16, 0,
   0, 18, 0, 0, 0, 4, 0,
   0, 75, 0, 0, 0, 0, 0,
   0, 0, 0, 0, 0]

lemma apiVersionsV4BodyBuild_eq : apiVersionsV4BodyBuild = apiVersionsV4BodyBytes := by
  unfold apiVersionsV4BodyBuild
  simp only [appendUVarInt_small _ (by norm_num : (5 : Nat) < 128),
    appendUVarInt_small _ (by norm_num : (0 : Nat) < 128)]
  decide

lemma buildApiVersionsV4Body_eq (c : Int) :
    buildApiVersionsV4Body c = frameResponse (appendInt32 [] c) apiVersionsV4BodyBytes := by
  rw [buildApiVersionsV4Body, apiVersionsV4BodyBuild_eq]

/-- Claim C4: for an ApiVersions request at any version 0–4 and any
correlation id `c`, the response is framed with Header v0 — exactly the
4-byte big-endian correlation id (`appendInt32 [] c`), no trailing
tagged buffer — and the body is `apiVersionsV4BodyBytes`. -/
theorem apiVersions_v4_response (v c : Int) (payload : List Nat) (st : BrokerState)
    (store : List Nat → Int → List Nat) (wOk : List Nat → Int → Bool)
    (hv : 0 ≤ v ∧ v ≤ 4) :
    handleRequest apiKeyApiVersions v c payload st store wOk
      = some (appendInt32 [] 40 ++ appendInt32 [] c ++ apiVersionsV4BodyBytes, []) ∧
    (appendInt32 [] c).length = 4 := by
  refine ⟨?_, appendInt32_nil_length c⟩
  unfold handleRequest
  rw [if_neg (by norm_num [apiKeyApiVersions, apiKeyProduce]),
    if_neg (by norm_num [apiKeyApiVersions, apiKeyFetch]), if_pos rfl,
    if_neg (by omega)]
  rw [buildApiVersionsV4Body_eq, frameResponse, appendInt32_nil_length]
  norm_num [apiVersionsV4BodyBytes]

/-- Witness for C4 at version 4, correlation id 7, over an empty catalog. -/
theorem apiVersions_v4_response_witness :
    ((0 : Int) ≤ 4 ∧ (4 : Int) ≤ 4) ∧
    handleRequest apiKeyApiVersions 4 7 [] [] (fun _ _ => []) (fun _ _ => false)
      = some (appendInt32 [] 40 ++ appendInt32 [] 7 ++ apiVersionsV4BodyBytes, []) :=
  ⟨⟨by norm_num, by norm_num⟩,
    (apiVersions_v4_response 4 7 [] [] (fun _ _ => []) (fun _ _ => false)
      ⟨by norm_num, by norm_num⟩).1⟩

/-- Claim C3 (amended): a recognized api_key with an unsupported
api_version is answered — for all four APIs alike — with Header v0
(the 4-byte correlation id only, no tagged buffer) and the two-byte
body `error_code = 35`, and the connection stays open (`serveOne`
returns `some`). The claim's Header v1 (with a trailing tagged buffer)
for DescribeTopicPartitions, Fetch and Produce does not match the code:
see the counterexample. -/
theorem unsupported_version_reply (k v c : Int) (payload : List Nat)
    (st : BrokerState) (store : List Nat → Int → List Nat)
    (wOk : List Nat → Int → Bool)
    (hk : (k = apiKeyProduce ∧ v ≠ 11) ∨ (k = apiKeyFetch ∧ v ≠ 16) ∨
      (k = apiKeyApiVersions ∧ (v < 0 ∨ v > 4)) ∨
      (k = apiKeyDescribeTopicParts ∧ v ≠ 0)) :
    handleRequest k v c payload st store wOk
      = some (frameResponse (appendInt32 [] c) (appendInt16 [] errUnsupportedVersion), []) ∧
    (∀ input rest, readRequest input = some ((k, v, c, payload), rest) →
      serveOne input st store wOk
        = some (frameResponse (appendInt32 [] c)
            (appendInt16 [] errUnsupportedVersion), [], rest)) := by
  have hmain : handleRequest k v c payload st store wOk
      = some (frameResponse (appendInt32 [] c) (appendInt16 [] errUnsupportedVersion), []) := by
    unfold handleRequest
    rcases hk with ⟨rfl, hv⟩ | ⟨rfl, hv⟩ | ⟨rfl, hv⟩ | ⟨rfl, hv⟩
    · rw [if_pos rfl, if_pos hv]
      rfl
    · rw [if_neg (by norm_num [apiKeyFetch, apiKeyProduce]), if_pos rfl, if_pos hv]
      rfl
    · rw [if_neg (by norm_num [apiKeyApiVersions, apiKeyProduce]),
        if_neg (by norm_num [apiKeyApiVersions, apiKeyFetch]), if_pos rfl,
        if_pos (by omega)]
      rfl
    · rw [if_neg (by norm_num [apiKeyDescribeTopicParts, apiKeyProduce]),
        if_neg (by norm_num [apiKeyDescribeTopicParts, apiKeyFetch]),
        if_neg (by norm_num [apiKeyDescribeTopicParts, apiKeyApiVersions]),
        if_pos rfl, if_pos hv]
      rfl
  refine ⟨hmain, ?_⟩
  intro input rest hin
  simp [serveOne, hin, hmain]

/-- Witness for C3's amended theorem: DescribeTopicPartitions (75) at
version 1 over a concrete framed request, with the connection left open. -/
theorem unsupported_version_reply_witness :
    ((75 : Int) = apiKeyDescribeTopicParts ∧ (1 : Int) ≠ 0) ∧
    handleRequest 75 1 7 [] [] (fun _ _ => []) (fun _ _ => false)
      = some (frameResponse (appendInt32 [] 7) (appendInt16 [] errUnsupportedVersion), []) ∧
    serveOne ([0, 0, 0, 10] ++ [0, 75, 0, 1, 0, 0, 0, 7, 0, 0]) [] (fun _ _ => [])
        (fun _ _ => false)
      = some (frameResponse (appendInt32 [] 7)
          (appendInt16 [] errUnsupportedVersion), [], []) := by
  have h := unsupported_version_reply 75 1 7 [] [] (fun _ _ => []) (fun _ _ => false)
    (Or.inr (Or.inr (Or.inr ⟨by norm_num [apiKeyDescribeTopicParts], by norm_num⟩)))
  exact ⟨⟨by norm_num [apiKeyDescribeTopicParts], by norm_num⟩, h.1,
    h.2 ([0, 0, 0, 10] ++ [0, 75, 0, 1, 0, 0, 0, 7, 0, 0]) [] (by decide)⟩

/-- Counterexample to C3 as stated: a DescribeTopicPartitions request at
the unsupported version 1 is answered under Header v0 — a 6-byte frame
with no tagged-buffer byte after the correlation id — not under the
Header v1 framing (7-byte frame) the claim requires for that API. -/
theorem unsupported_version_counterexample :
    handleRequest 75 1 0 [] [] (fun _ _ => []) (fun _ _ => false)
      = some ([0, 0, 0, 6, 0, 0, 0, 0, 0, 35], []) ∧
    ([0, 0, 0, 6, 0, 0, 0, 0, 0, 35] : List Nat)
      ≠ [0, 0, 0, 7] ++ [0, 0, 0, 0] ++ [0] ++ [0, 35] := by
  exact ⟨by decide, by decide⟩

/-- Claim C9: an unrecognized api_key is answered with the outer length
prefix (value 4) followed by only the 4-byte correlation id — 8 bytes in
all, a zero-length body under the frame — and the connection stays open
(`serveOne` returns `some` with the remaining stream). -/
theorem unknown_api_key_reply (k v c : Int) (payload : List Nat)
    (st : BrokerState) (store : List Nat → Int → List Nat)
    (wOk : List Nat → Int → Bool)
    (hk : k ≠ apiKeyProduce ∧ k ≠ apiKeyFetch ∧ k ≠ apiKeyApiVersions ∧
      k ≠ apiKeyDescribeTopicParts) :
    handleRequest k v c payload st store wOk
      = some (appendInt32 [] 4 ++ appendInt32 [] c, []) ∧
    (appendInt32 [] 4 ++ appendInt32 [] c).length = 8 ∧
    (∀ input rest, readRequest input = some ((k, v, c, payload), rest) →
      serveOne input st store wOk
        = some (appendInt32 [] 4 ++ appendInt32 [] c, [], rest)) := by
  have hmain : handleRequest k v c payload st store wOk
      = some (appendInt32 [] 4 ++ appendInt32 [] c, []) := by
    unfold handleRequest
    rw [if_neg hk.1, if_neg hk.2.1, if_neg hk.2.2.1, if_neg hk.2.2.2]
    rw [frameResponse, appendInt32_nil_length]
    norm_num
  refine ⟨hmain, ?_, ?_⟩
  · simp [appendInt32_nil_length]
  · intro input rest hin
    simp [serveOne, hin, hmain]

/-- Witness for C9: api_key 42 over a concrete framed request. -/
theorem unknown_api_key_reply_witness :
    ((42 : Int) ≠ apiKeyProduce ∧ (42 : Int) ≠ apiKeyFetch ∧
      (42 : Int) ≠ apiKeyApiVersions ∧ (42 : Int) ≠ apiKeyDescribeTopicParts) ∧
    serveOne ([0, 0, 0, 10] ++ [0, 42, 0, 0, 0, 0, 0, 9, 0, 0]) [] (fun _ _ => [])
        (fun _ _ => false)
      = some (appendInt32 [] 4 ++ appendInt32 [] 9, [], []) := by
  have hk : (42 : Int) ≠ apiKeyProduce ∧ (42 : Int) ≠ apiKeyFetch ∧
      (42 : Int) ≠ apiKeyApiVersions ∧ (42 : Int) ≠ apiKeyDescribeTopicParts := by
    refine ⟨?_, ?_, ?_, ?_⟩ <;> norm_num [apiKeyProduce, apiKeyFetch,
      apiKeyApiVersions, apiKeyDescribeTopicParts]
  have h := unknown_api_key_reply 42 0 9 [] [] (fun _ _ => []) (fun _ _ => false) hk
  exact ⟨hk, h.2.2 ([0, 0, 0, 10] ++ [0, 42, 0, 0, 0, 0, 0, 9, 0, 0]) [] (by decide)⟩

/-! ## Fetch v16 response shape (claim C5) -/

lemma foldl_append_of_step {α : Type} (step : List Nat → α → List Nat)
    (f : α → List Nat) (hstep : ∀ b a, step b a = b ++ f a) :
    ∀ (l : List α) (b : List Nat), l.foldl step b = b ++ (l.map f).flatten := by
  intro l
  induction l with
  | nil => intro b; simp
  | cons a t ih => intro b; simp [hstep, ih, List.append_assoc]

lemma be2_0 : beBytes 2 ((0 : Int).emod 65536).toNat = [0, 0] := by decide
lemma be2_3 : beBytes 2 ((3 : Int).emod 65536).toNat = [0, 3] := by decide
lemma be2_100 : beBytes 2 ((100 : Int).emod 65536).toNat = [0, 100] := by decide
lemma be4_0 : beBytes 4 ((0 : Int).emod 4294967296).toNat = [0, 0, 0, 0] := by decide
lemma be4_1 : beBytes 4 ((1 : Int).emod 4294967296).toNat = [0, 0, 0, 1] := by decide
lemma be4_neg1 : beBytes 4 ((-1 : Int).emod 4294967296).toNat = [255, 255, 255, 255] := by
  decide
lemma be4_min : beBytes 4 ((-2147483648 : Int).emod 4294967296).toNat = [128, 0, 0, 0] := by
  decide
lemma be8_0 : beBytes 8 ((0 : Int).emod 18446744073709551616).toNat = List.replicate 8 0 := by decide
lemma be8_1 : beBytes 8 ((1 : Int).emod 18446744073709551616).toNat = [0, 0, 0, 0, 0, 0, 0, 1] := by
  decide
lemma be8_neg1 : beBytes 8 ((-1 : Int).emod 18446744073709551616).toNat = List.replicate 8 255 := by
  decide

/-- Claim C5's per-topic Fetch entry, written as the spec describes it:
the echoed UUID, a one-entry partition array, `partition_index = 0`,
then either the unknown-topic branch (`error_code = 100`, all offsets 0,
empty aborted-transactions, `preferred_read_replica = 0`, empty records)
or the known-topic branch (`error_code = 0`, `high_watermark = 1`,
`last_stable_offset = 0`, `log_start_offset = 0`, empty
aborted-transactions, `preferred_read_replica = 0`, then the partition
store's bytes as compact-bytes with prefix `len+1`, or prefix 1 when the
store returns nothing), each closed by tagged buffers. -/
def fetchTopicEntrySpec (state : BrokerState) (store : List Nat → Int → List Nat)
    (topicID : List Nat) : List Nat :=
  topicID ++ [2] ++ [0, 0, 0, 0] ++
    (match findTopicByID state topicID with
     | none =>
         [0, 100] ++ List.replicate 8 0 ++ List.replicate 8 0 ++ List.replicate 8 0 ++
           [1] ++ [0, 0, 0, 0] ++ [1] ++ [0]
     | some (topicName, _) =>
         let records := store topicName 0
         [0, 0] ++ [0, 0, 0, 0, 0, 0, 0, 1] ++ List.replicate 8 0 ++
           List.replicate 8 0 ++ [1] ++ [0, 0, 0, 0] ++
           (if records.length > 0 then appendUVarInt [] (records.length + 1) ++ records
            else [1]) ++ [0]) ++
  [0]

lemma fetchAppendTopic_eq (st : BrokerState) (store : List Nat → Int → List Nat)
    (b tid : List Nat) :
    fetchAppendTopic st store b tid = b ++ fetchTopicEntrySpec st store tid := by
  unfold fetchAppendTopic fetchTopicEntrySpec
  rcases hf : findTopicByID st tid with _ | ⟨name, m⟩
  · simp only [hf, appendInt16, appendInt32, appendInt64,
      appendUVarInt_small _ (by norm_num : (2 : Nat) < 128),
      appendUVarInt_small _ (by norm_num : (1 : Nat) < 128),
      appendUVarInt_small _ (by norm_num : (0 : Nat) < 128),
      errUnknownTopicID, be2_100, be4_0, be8_0]
    simp [List.append_assoc]
  · simp only [hf, appendInt16, appendInt32, appendInt64,
      appendUVarInt_small _ (by norm_num : (2 : Nat) < 128),
      appendUVarInt_small _ (by norm_num : (1 : Nat) < 128),
      appendUVarInt_small _ (by norm_num : (0 : Nat) < 128),
      errNone, be2_0, be4_0, be8_0, be8_1]
    by_cases hr : (store name 0).length > 0
    · rw [if_pos hr, if_pos hr, appendUVarInt_eq_append]
      simp [List.append_assoc]
    · rw [if_neg hr, if_neg hr]
      simp [List.append_assoc]

/-- Claim C5: the Fetch v16 response is the Header v1 frame (correlation
id plus empty tagged buffer) over `throttle_time_ms = 0`, `error_code =
0`, `session_id = 0`, then one `fetchTopicEntrySpec` entry per requested
topic UUID, in request order, and a trailing tagged buffer. -/
theorem fetch_v16_response (c : Int) (reqBody : List Nat) (st : BrokerState)
    (store : List Nat → Int → List Nat) :
    handleFetchV16 c reqBody st store
      = frameResponse (appendInt32 [] c ++ [0])
          ([0, 0, 0, 0, 0, 0, 0, 0, 0, 0] ++
            appendUVarInt [] ((parseFetchRequestV16 reqBody).length + 1) ++
            ((parseFetchRequestV16 reqBody).map (fetchTopicEntrySpec st store)).flatten ++
            [0]) := by
  simp only [handleFetchV16]
  rw [foldl_append_of_step _ _ (fetchAppendTopic_eq st store)]
  rw [appendUVarInt_small _ (by norm_num : (0 : Nat) < 128)]
  rw [appendUVarInt_eq_append
    (appendInt32 (appendInt16 (appendInt32 [] 0) errNone) 0)]
  rw [show appendInt32 (appendInt16 (appendInt32 [] 0) errNone) 0
    = [0, 0, 0, 0, 0, 0, 0, 0, 0, 0] from by decide]
  rw [appendUVarInt_small _ (by norm_num : (0 : Nat) < 128)]

/-! ## Produce v11 response shape and write effects (claim C6) -/

lemma foldl_append_pair {α β : Type} (step : (List Nat × List β) → α → (List Nat × List β))
    (f : α → List Nat) (g : α → List β)
    (hstep : ∀ acc a, step acc a = (acc.1 ++ f a, acc.2 ++ g a)) :
    ∀ (l : List α) (acc : List Nat × List β),
      l.foldl step acc = (acc.1 ++ (l.map f).flatten, acc.2 ++ (l.map g).flatten) := by
  intro l
  induction l with
  | nil => intro acc; simp
  | cons a t ih => intro acc; simp [hstep, ih, List.append_assoc]

lemma appendCompactString_eq_append (b s : List Nat) :
    appendCompactString b s = b ++ appendCompactString [] s := by
  rw [appendCompactString, appendCompactString, appendUVarInt_eq_append b]
  simp [List.append_assoc]

/-- Claim C6's per-partition Produce response: the echoed partition
index, then — when the topic is known, the index is inside
`[0, max(partition_count, 1))` and the store write succeeds —
`error_code = 0`, `base_offset = 0`, `log_append_time = -1`,
`log_start_offset = 0`; otherwise `error_code = 3` and all three offsets
`-1`; then empty record_errors, empty error_message and a tagged
buffer. -/
def producePartRespSpec (found : Option Meta) (name : List Nat)
    (writeOk : List Nat → Int → Bool) (p : ProducePartReq) : List Nat :=
  appendInt32 [] p.idx ++
    (if produceOk found name writeOk p then
      [0, 0] ++ List.replicate 8 0 ++ List.replicate 8 255 ++ List.replicate 8 0
    else
      [0, 3] ++ List.replicate 8 255 ++ List.replicate 8 255 ++ List.replicate 8 255) ++
    [1, 1, 0]

/-- The store write claim C6 allows for one partition: exactly the
records bytes for (topic, index) when the partition succeeds, nothing
when it errors. -/
def produceWriteSpec (found : Option Meta) (name : List Nat)
    (writeOk : List Nat → Int → Bool) (p : ProducePartReq) : List ProduceWrite :=
  if produceOk found name writeOk p then [(name, p.idx, p.records)] else []

/-- Claim C6's per-topic Produce response: the topic name, then one
`producePartRespSpec` per requested partition — each partition answered
independently of the others — and a closing tagged buffer. -/
def produceTopicRespSpec (st : BrokerState) (writeOk : List Nat → Int → Bool)
    (t : ProduceTopicReq) : List Nat :=
  appendCompactString [] t.name ++ appendUVarInt [] (t.parts.length + 1) ++
    (t.parts.map (producePartRespSpec (findTopic st t.name) t.name writeOk)).flatten ++ [0]

def produceTopicWritesSpec (st : BrokerState) (writeOk : List Nat → Int → Bool)
    (t : ProduceTopicReq) : List ProduceWrite :=
  (t.parts.map (produceWriteSpec (findTopic st t.name) t.name writeOk)).flatten

lemma produceAppendPart_eq (found : Option Meta) (name : List Nat)
    (writeOk : List Nat → Int → Bool) (acc : List Nat × List ProduceWrite)
    (p : ProducePartReq) :
    produceAppendPart found name writeOk acc p
      = (acc.1 ++ producePartRespSpec found name writeOk p,
         acc.2 ++ produceWriteSpec found name writeOk p) := by
  unfold produceAppendPart producePartRespSpec produceWriteSpec
  by_cases hok : produceOk found name writeOk p
  · simp only [hok, if_true, appendInt16, appendInt32, appendInt64,
      appendCompactString, appendUVarInt_small _ (by norm_num : (1 : Nat) < 128),
      appendUVarInt_small _ (by norm_num : (0 : Nat) < 128),
      errNone, be2_0, be8_0, be8_neg1]
    rw [appendUVarInt_small _ (by norm_num : ([] : List Nat).length + 1 < 128)]
    simp [List.append_assoc]
  · simp only [hok, Bool.false_eq_true, if_false, reduceIte, appendInt16, appendInt32,
      appendInt64, appendCompactString,
      appendUVarInt_small _ (by norm_num : (1 : Nat) < 128),
      appendUVarInt_small _ (by norm_num : (0 : Nat) < 128),
      errUnknownTopicOrPartition, be2_3, be8_neg1]
    rw [appendUVarInt_small _ (by norm_num : ([] : List Nat).length + 1 < 128)]
    simp [List.append_assoc]

lemma produceAppendTopic_eq (st : BrokerState) (writeOk : List Nat → Int → Bool)
    (acc : List Nat × List ProduceWrite) (t : ProduceTopicReq) :
    produceAppendTopic st writeOk acc t
      = (acc.1 ++ produceTopicRespSpec st writeOk t,
         acc.2 ++ produceTopicWritesSpec st writeOk t) := by
  simp only [produceAppendTopic, produceTopicRespSpec, produceTopicWritesSpec]
  rw [foldl_append_pair _ _ _ (produceAppendPart_eq (findTopic st t.name) t.name writeOk)]
  rw [appendUVarInt_small _ (by norm_num : (0 : Nat) < 128)]
  rw [appendUVarInt_eq_append (appendCompactString acc.1 t.name)]
  rw [appendCompactString_eq_append acc.1]
  simp [List.append_assoc]

/-- Supporting fact for the non-panicking Produce v11 paths: when the
request parser returns (does not hit the negative-capacity panic), the
response is the flexible header (correlation id plus empty tagged
buffer) over one `produceTopicRespSpec` per requested topic, then
`throttle_time_ms = 0` and a tagged buffer; the partition-store writes
that take effect are exactly the `produceWriteSpec` records; and each
partition's answer and effect depend only on that partition's own
request (the per-partition `map`). -/
theorem produce_v11_response (c : Int) (reqBody : List Nat) (st : BrokerState)
    (writeOk : List Nat → Int → Bool) (reqs : List ProduceTopicReq)
    (hparse : parseProduceRequestV11 reqBody = some reqs) :
    handleProduceV11 c reqBody st writeOk
      = some (frameResponse (appendInt32 [] c ++ [0])
          (appendUVarInt [] (reqs.length + 1) ++
            (reqs.map (produceTopicRespSpec st writeOk)).flatten ++
            [0, 0, 0, 0] ++ [0]),
         (reqs.map (produceTopicWritesSpec st writeOk)).flatten) := by
  have hsplit : handleProduceV11 c reqBody st writeOk
      = some (produceBuild c reqs st writeOk) := by
    unfold handleProduceV11
    rw [hparse]
  rw [hsplit]
  simp only [Option.some.injEq, produceBuild]
  rw [foldl_append_pair _ _ _ (produceAppendTopic_eq st writeOk)]
  rw [appendUVarInt_small _ (by norm_num : (0 : Nat) < 128)]
  rw [appendUVarInt_small _ (by norm_num : (0 : Nat) < 128)]
  simp only [appendInt32, be4_0]
  simp [List.append_assoc]

/-- Claim C6 (code bug): Go `parseProduceRequestV11` guards its
topic-count capacity but not its per-topic partition-count capacity, so
a Produce v11 body whose partition-count varint is 0 executes
`make([]ProducePartitionRequest, 0, -1)` — a deterministic run-time
panic. On the concrete request below — topic `A` (in the catalog, store
write succeeding) with one valid partition entry, followed by topic `B`
whose partition-count varint is 0 — the handler crashes and produces no
response at all, so topic `A`'s partition, which the claim requires to
be answered independently with `error_code = 0`, receives no answer;
the connection (indeed the process) dies rather than staying open. -/
theorem produce_v11_negative_cap_panic :
    parseProduceRequestV11
        [0, 0, 0, 0, 0, 0, 0, 0, 3, 2, 65, 2, 0, 0, 0, 0, 1, 0, 0, 2, 66, 0] = none ∧
    handleProduceV11 7
        [0, 0, 0, 0, 0, 0, 0, 0, 3, 2, 65, 2, 0, 0, 0, 0, 1, 0, 0, 2, 66, 0]
        [([65], ⟨List.replicate 16 1, 1⟩)] (fun _ _ => true) = none ∧
    serveOne
        ([0, 0, 0, 32] ++ [0, 0, 0, 11, 0, 0, 0, 7, 0, 0] ++
          [0, 0, 0, 0, 0, 0, 0, 0, 3, 2, 65, 2, 0, 0, 0, 0, 1, 0, 0, 2, 66, 0])
        [([65], ⟨List.replicate 16 1, 1⟩)] (fun _ _ => []) (fun _ _ => true) = none := by
  exact ⟨by decide, rfl, rfl⟩

/-! ## DescribeTopicPartitions ordering (claim C7) -/

lemma lexLe_total : ∀ (a b : List Nat), lexLe a b || lexLe b a
  | [], b => by simp [lexLe]
  | _ :: _, [] => by simp [lexLe]
  | x :: xs, y :: ys => by
    by_cases h1 : x < y
    · simp [lexLe, h1]
    · by_cases h2 : y < x
      · simp [lexLe, h1, h2]
      · have hxy : x = y := by omega
        subst hxy
        simpa [lexLe, h1, h2] using lexLe_total xs ys

lemma lexLe_trans : ∀ (a b c : List Nat),
    lexLe a b = true → lexLe b c = true → lexLe a c = true
  | [], _, _, _, _ => by simp [lexLe]
  | x :: xs, [], _, hab, _ => by simp [lexLe] at hab
  | x :: xs, y :: ys, [], _, hbc => by simp [lexLe] at hbc
  | x :: xs, y :: ys, z :: zs, hab, hbc => by
    simp only [lexLe] at hab hbc ⊢
    by_cases h1 : x < y <;> by_cases h2 : y < z
    · simp [show x < z by omega]
    · simp only [h2, if_false, ite_false] at hbc
      by_cases h3 : z < y
      · simp [h3] at hbc
      · have : y = z := by omega
        subst this
        simp [h1]
    · simp only [h1, if_false, ite_false] at hab
      by_cases h3 : y < x
      · simp [h3] at hab
      · have : x = y := by omega
        subst this
        simp [h2]
    · simp only [h1, if_false, ite_false] at hab
      simp only [h2, if_false, ite_false] at hbc
      by_cases h3 : y < x
      · simp [h3] at hab
      · by_cases h4 : z < y
        · simp [h4] at hbc
        · have hxy : x = y := by omega
          have hyz : y = z := by omega
          subst hxy
          subst hyz
          simp only [lt_irrefl, if_false, ite_false] at hab hbc ⊢
          exact lexLe_trans xs ys zs hab hbc

lemma lexLe_antisymm : ∀ (a b : List Nat),
    lexLe a b = true → lexLe b a = true → a = b
  | [], [], _, _ => rfl
  | [], _ :: _, _, hba => by simp [lexLe] at hba
  | _ :: _, [], hab, _ => by simp [lexLe] at hab
  | x :: xs, y :: ys, hab, hba => by
    simp only [lexLe] at hab hba
    by_cases h1 : x < y
    · simp [show ¬ y < x by omega, h1] at hba
    · by_cases h2 : y < x
      · simp [h2] at hab
        omega
      · have hxy : x = y := by omega
        subst hxy
        simp only [lt_irrefl, if_false, ite_false] at hab hba
        rw [lexLe_antisymm xs ys hab hba]

lemma mergeSort_lexLe_eq_of_perm {l1 l2 : List (List Nat)} (h : l1.Perm l2) :
    l1.mergeSort lexLe = l2.mergeSort lexLe := by
  haveI : IsAntisymm (List Nat) (fun a b => lexLe a b = true) :=
    ⟨fun a b => lexLe_antisymm a b⟩
  apply List.eq_of_perm_of_sorted (r := fun a b => lexLe a b = true)
  · exact (List.mergeSort_perm l1 lexLe).trans (h.trans (List.mergeSort_perm l2 lexLe).symm)
  · exact List.sorted_mergeSort (fun a b c => lexLe_trans a b c) lexLe_total l1
  · exact List.sorted_mergeSort (fun a b c => lexLe_trans a b c) lexLe_total l2

/-- One partition entry of a known topic in the DescribeTopicPartitions
response: `err = 0`, the partition index, `leader_id = 1`,
`leader_epoch = -1`, `replicas = [1]`, `isr = [1]`, three empty arrays
and a tagged buffer. -/
def dtpPartitionEntry (partIdx : Nat) : List Nat :=
  [0, 0] ++ appendInt32 [] (partIdx : Int) ++ [0, 0, 0, 1] ++ [255, 255, 255, 255] ++
    [2] ++ [0, 0, 0, 1] ++ [2] ++ [0, 0, 0, 1] ++ [1] ++ [1] ++ [1] ++ [0]

/-- One topic response of the DescribeTopicPartitions body: the unknown
branch (`error_code = 3`, zero UUID, empty partitions) or the known
branch (`error_code = 0`, the UUID, `max(partition_count, 1)` partition
entries), each ending in `authorized_ops = INT32_MIN` and a tagged
buffer. -/
def dtpTopicSectionSpec (st : BrokerState) (name : List Nat) : List Nat :=
  match findTopic st name with
  | none =>
      [0, 3] ++ appendCompactString [] name ++ List.replicate 16 0 ++ [0] ++ [1] ++
        [128, 0, 0, 0] ++ [0]
  | some meta =>
      let num : Nat := if meta.partitions = 0 then 1 else meta.partitions
      [0, 0] ++ appendCompactString [] name ++ meta.id ++ [0] ++
        appendUVarInt [] (num + 1) ++ ((List.range num).map dtpPartitionEntry).flatten ++
        [128, 0, 0, 0] ++ [0]

lemma dtpAppendPartition_eq (b : List Nat) (i : Nat) :
    dtpAppendPartition b i = b ++ dtpPartitionEntry i := by
  simp only [dtpAppendPartition, dtpPartitionEntry, appendInt16, appendInt32,
    appendUVarInt_small _ (by norm_num : (2 : Nat) < 128),
    appendUVarInt_small _ (by norm_num : (1 : Nat) < 128),
    appendUVarInt_small _ (by norm_num : (0 : Nat) < 128),
    errNone, be2_0, be4_1, be4_neg1]
  simp [List.append_assoc]

lemma dtpAppendTopic_eq (st : BrokerState) (b name : List Nat) :
    dtpAppendTopic st b name = b ++ dtpTopicSectionSpec st name := by
  simp only [dtpAppendTopic, dtpTopicSectionSpec]
  rcases hf : findTopic st name with _ | meta
  · simp only [appendInt16, appendInt32,
      appendUVarInt_small _ (by norm_num : (1 : Nat) < 128),
      appendUVarInt_small _ (by norm_num : (0 : Nat) < 128),
      errUnknownTopicOrPartition, be2_3, be4_min]
    rw [appendCompactString_eq_append]
    simp [List.append_assoc]
  · dsimp only
    rw [foldl_append_of_step _ _ dtpAppendPartition_eq]
    simp only [appendInt16, appendInt32,
      appendUVarInt_small _ (by norm_num : (0 : Nat) < 128),
      errNone, be2_0, be4_min]
    rw [appendUVarInt_eq_append, appendCompactString_eq_append]
    simp [List.append_assoc]

/-- Claim C7: the DescribeTopicPartitions v0 body consists of the topic
sections for the requested names in `mergeSort lexLe` order; that order
is ascending lexicographic (`Pairwise lexLe`); and any two requests
whose parsed topic-name lists are permutations of each other receive
identical responses — the emission order does not depend on the request
order. -/
theorem dtp_v0_sorted (c : Int) (reqBody : List Nat) (st : BrokerState) :
    (handleDescribeTopicPartitionsV0 c reqBody st
      = frameResponse (appendInt32 [] c ++ [0])
          ([0, 0, 0, 0] ++
            appendUVarInt [] (((parseTopicRequests reqBody).mergeSort lexLe).length + 1) ++
            (((parseTopicRequests reqBody).mergeSort lexLe).map
              (dtpTopicSectionSpec st)).flatten ++
            [255, 0])) ∧
    ((parseTopicRequests reqBody).mergeSort lexLe).Pairwise (fun a b => lexLe a b = true) ∧
    (∀ reqBody2, (parseTopicRequests reqBody2).Perm (parseTopicRequests reqBody) →
      handleDescribeTopicPartitionsV0 c reqBody2 st
        = handleDescribeTopicPartitionsV0 c reqBody st) := by
  have hmain : ∀ body : List Nat, handleDescribeTopicPartitionsV0 c body st
      = frameResponse (appendInt32 [] c ++ [0])
          ([0, 0, 0, 0] ++
            appendUVarInt [] (((parseTopicRequests body).mergeSort lexLe).length + 1) ++
            (((parseTopicRequests body).mergeSort lexLe).map
              (dtpTopicSectionSpec st)).flatten ++
            [255, 0]) := by
    intro body
    simp only [handleDescribeTopicPartitionsV0]
    rw [foldl_append_of_step _ _ (dtpAppendTopic_eq st)]
    rw [appendUVarInt_small _ (by norm_num : (0 : Nat) < 128)]
    rw [appendUVarInt_eq_append (appendInt32 [] 0)]
    rw [show appendInt32 [] (0 : Int) = [0, 0, 0, 0] from by decide]
    rw [appendUVarInt_small _ (by norm_num : (0 : Nat) < 128)]
    simp [List.append_assoc]
  refine ⟨hmain reqBody, ?_, ?_⟩
  · exact List.sorted_mergeSort (fun a b c => lexLe_trans a b c) lexLe_total _
  · intro reqBody2 hperm
    rw [hmain reqBody, hmain reqBody2, mergeSort_lexLe_eq_of_perm hperm]

/-- Witness for C7's permutation clause at two concrete two-topic
requests (`["bb", "aa"]` and `["aa", "bb"]`). -/
theorem dtp_v0_sorted_witness :
    (parseTopicRequests [0, 3, 3, 97, 97, 0, 3, 98, 98, 0]).Perm
      (parseTopicRequests [0, 3, 3, 98, 98, 0, 3, 97, 97, 0]) ∧
    handleDescribeTopicPartitionsV0 5 [0, 3, 3, 97, 97, 0, 3, 98, 98, 0] []
      = handleDescribeTopicPartitionsV0 5 [0, 3, 3, 98, 98, 0, 3, 97, 97, 0] [] := by
  have hperm : (parseTopicRequests [0, 3, 3, 97, 97, 0, 3, 98, 98, 0]).Perm
      (parseTopicRequests [0, 3, 3, 98, 98, 0, 3, 97, 97, 0]) := by
    have h1 : parseTopicRequests [0, 3, 3, 97, 97, 0, 3, 98, 98, 0]
        = [[97, 97], [98, 98]] := by decide
    have h2 : parseTopicRequests [0, 3, 3, 98, 98, 0, 3, 97, 97, 0]
        = [[98, 98], [97, 97]] := by decide
    rw [h1, h2]
    exact List.Perm.swap _ _ _
  exact ⟨hperm, (dtp_v0_sorted 5 [0, 3, 3, 98, 98, 0, 3, 97, 97, 0] []).2.2
    [0, 3, 3, 97, 97, 0, 3, 98, 98, 0] hperm⟩

/-! ## Header tagged-field skipping (claim C8) -/

/-- Follows the spec's words (tagged-field buffer): after the unsigned
varint tag count `T`, each tag is a tag id and a length-prefixed value,
and the reader skips each tag by advancing the cursor by the declared
length (clamped to the end of the slice so the cursor stays in bounds).
This is the claim-side definition, to be compared with the code's
`parseHeader`. -/
def specSkipTags : Nat → BytesReader → BytesReader
  | 0, br => br
  | t + 1, br =>
    let tagId := readUVarInt br
    let len := readUVarInt tagId.2
    let br2 : BytesReader :=
      if canRead len.2 len.1 then ⟨len.2.b, len.2.off + len.1⟩
      else ⟨len.2.b, len.2.b.length⟩
    specSkipTags t br2

/-- Follows the spec's words (header v2): fixed fields at offsets 0–8,
then the compact nullable client_id, then a tagged-field buffer whose
every declared tag is walked and skipped by its declared length; the
body begins at the resulting cursor. Claim-side definition for
comparison with `parseHeader`. -/
def specParseHeaderTagged (payload : List Nat) : Option (Int × Int × Int × List Nat) :=
  if payload.length < 8 then none
  else
    let apiKey := toSigned 16 (beSlice payload 0 2)
    let apiVersion := toSigned 16 (beSlice payload 2 2)
    let corrID := toSigned 32 (beSlice payload 4 4)
    let hbr : BytesReader := ⟨payload, 8⟩
    let hbr1 := (readCompactNullableString hbr).2
    let p := readUVarInt hbr1
    let hbr2 := specSkipTags p.1 p.2
    some (apiKey, apiVersion, corrID, payload.drop hbr2.off)

/-- Claim C8 (code bug): on the frame payload
`00 12 00 04 00 00 00 07 00 01 00 02 AA BB` — ApiVersions v4,
correlation id 7, null client_id, one tagged field (tag id 0, declared
value length 2, value `AA BB`) — the code's header parser treats the
tagged-field count varint as a byte count, advances by 1 (over the tag
id only) and hands the handler the misaligned body `[02 AA BB]`; the
per-tag skipping the claim and spec describe yields the body `[]`. -/
theorem header_tag_skip_code_bug :
    parseHeader [0, 18, 0, 4, 0, 0, 0, 7, 0, 1, 0, 2, 170, 187]
      = some (18, 4, 7, [2, 170, 187]) ∧
    specParseHeaderTagged [0, 18, 0, 4, 0, 0, 0, 7, 0, 1, 0, 2, 170, 187]
      = some (18, 4, 7, []) ∧
    ([2, 170, 187] : List Nat) ≠ [] := by
  exact ⟨by decide, by decide, by decide⟩

end Kafka
